import Mathlib

/-!
Verification of the PDF-Summary document summarization application.

The definitions below are a shallow embedding of the Python source
(src/app.py).  Strings are modelled as lists of characters; the external
collaborators (the PDF parsing library, the file system and the
summarization model) are modelled as oracles supplied through an
environment record.  The chunking routine of the chunked variant of the
application is not part of src/app.py and is modelled from the
specification text.
-/

namespace PdfSummary

/-- Application configuration constant: maximum number of characters passed
to the summarization model (MAX_TEXT_LENGTH in app.py). -/
def MAX_TEXT_LENGTH : Nat := 1024

/-- The allowed file extensions (ALLOWED_EXTENSIONS in app.py), already
lower-case, as lists of characters. -/
def ALLOWED_EXTENSIONS : List (List Char) := ["pdf".data, "txt".data]

/-- Python str.lower restricted to the ASCII range, applied per character:
an upper-case ASCII letter is mapped to its lower-case form, every other
character is unchanged. -/
def pyLowerChar (c : Char) : Char :=
  if c.val ≥ 65 ∧ c.val ≤ 90 then Char.ofNat (c.toNat + 32) else c

/-- The part of a filename after its last dot: drop everything up to and
including the final occurrence of the dot character.  This models
Python filename.rsplit with separator dot and count one, taking the
second component, for filenames that contain a dot. -/
def afterLastDot (filename : List Char) : List Char :=
  ((filename.reverse.takeWhile (fun c => c ≠ '.')).reverse)

/-- is_valid_file_extension from app.py: the filename contains a dot and
the substring after the last dot, lower-cased, is one of the allowed
extensions. -/
def is_valid_file_extension (filename : List Char) : Bool :=
  filename.contains '.' &&
    ALLOWED_EXTENSIONS.contains ((afterLastDot filename).map pyLowerChar)

/-- Python default whitespace test for the characters relevant to
str.strip: space, tab, newline, carriage return, vertical tab, form feed. -/
def pyIsSpace (c : Char) : Bool :=
  c = ' ' || c = '\t' || c = '\n' || c = '\r' || c = Char.ofNat 11 || c = Char.ofNat 12

/-- Python str.strip with no arguments: remove leading and trailing
whitespace characters. -/
def pyStrip (s : List Char) : List Char :=
  ((s.dropWhile pyIsSpace).reverse.dropWhile pyIsSpace).reverse

/-- Python separator.join for a single-space separator: interleave the
pieces with one space character. -/
def joinWithSpace (pieces : List (List Char)) : List Char :=
  List.intercalate [' '] pieces

/-- PDF branch of extract_text_from_file in app.py: each page contributes
its extracted text, a page with no extractable text (the library returns
None) contributes the empty string, the page texts are joined with a
single space and the result is stripped of surrounding whitespace.
The per-page results of the external PDF library are the input. -/
def extract_text_from_pdf (pages : List (Option (List Char))) : List Char :=
  pyStrip (joinWithSpace (pages.map (fun p => p.getD [])))

/-- txt branch of extract_text_from_file in app.py: the file content read
as UTF-8, stripped of surrounding whitespace. -/
def extract_text_from_txt (content : List Char) : List Char :=
  pyStrip content

/-- The kinds of user-visible failures of process_document in app.py:
the unsupported-extension message (carrying the allowed set it names),
an input/output failure while saving the upload, the no-text-extracted
message (also shown when extract_text_from_file caught an exception and
returned None), and a failure of the model load or invocation. -/
inductive PipelineError where
  | validation (allowed : List (List Char))
  | saveFailure
  | extraction
  | summarization
deriving DecidableEq

/-- The st.session_state.summary_result dictionary of app.py.  Note that
original_text holds the possibly truncated text, while original_length
is the pre-truncation length. -/
structure SummaryResult where
  summary : List Char
  original_text : List Char
  original_length : Nat
  summary_length : Nat
deriving DecidableEq

/-- The st.session_state.stats dictionary of app.py.  The compression
ratio is modelled as an exact rational. -/
structure Stats where
  original_length : Nat
  summary_length : Nat
  compression_ratio : ℚ
deriving DecidableEq

/-- The observables of one run of process_document: the error shown (if
any), the two session-state dictionaries stored (if stored), whether a
temporary file was created on disk, whether the on-disk copy of the
uploaded document was completed (file created and all bytes written),
whether the temporary file was removed by the end of the run, and the
text handed to the summarization model (if the pipeline reached that
call). -/
structure RunResult where
  shownError : Option PipelineError
  summary_result : Option SummaryResult
  stats : Option Stats
  tempFileCreated : Bool
  tempCopyCreated : Bool
  tempDeleted : Bool
  extractionAttempted : Bool
  summarizerInput : Option (List Char)
deriving DecidableEq

/-- The environment of one run: the name of the uploaded file, and the
behaviour of the external collaborators.  writeOk tells whether reading
the upload buffer and writing its bytes to the fresh temporary file
succeed.  extractResult is the value returned by extract_text_from_file
(none models an exception caught inside it, after which it returns
None).  summarize gives the model output on a given input text, none
modelling a model load or invocation exception. -/
structure Env where
  file_name : List Char
  writeOk : Bool
  extractResult : Option (List Char)
  summarize : List Char → Option (List Char)

/-- process_document from app.py, as a function from the run environment
to the run observables.  The control flow mirrors the source: extension
validation first (before any temporary file); then the temporary file is
created and the uploaded bytes are written to it; a failure there
propagates to the outer handler without reaching the inner cleanup
block; from then on the inner block guarantees removal of the temporary
file on every path; extraction failure or empty extracted text aborts
with an error; the text is truncated to MAX_TEXT_LENGTH characters when
longer before the model call; on success both session-state dictionaries
are stored, with compression_ratio computed from the pre-truncation
length. -/
def process_document (env : Env) : RunResult :=
  if ¬ is_valid_file_extension env.file_name then
    { shownError := some (.validation ALLOWED_EXTENSIONS)
      summary_result := none, stats := none
      tempFileCreated := false, tempCopyCreated := false, tempDeleted := false
      extractionAttempted := false, summarizerInput := none }
  else if ¬ env.writeOk then
    { shownError := some .saveFailure
      summary_result := none, stats := none
      tempFileCreated := true, tempCopyCreated := false, tempDeleted := false
      extractionAttempted := false, summarizerInput := none }
  else
    match env.extractResult with
    | none =>
      { shownError := some .extraction
        summary_result := none, stats := none
        tempFileCreated := true, tempCopyCreated := true, tempDeleted := true
        extractionAttempted := true, summarizerInput := none }
    | some text =>
      if text.isEmpty then
        { shownError := some .extraction
          summary_result := none, stats := none
          tempFileCreated := true, tempCopyCreated := true, tempDeleted := true
          extractionAttempted := true, summarizerInput := none }
      else
        let truncated :=
          if text.length > MAX_TEXT_LENGTH then text.take MAX_TEXT_LENGTH else text
        match env.summarize truncated with
        | none =>
          { shownError := some .summarization
            summary_result := none, stats := none
            tempFileCreated := true, tempCopyCreated := true, tempDeleted := true
            extractionAttempted := true, summarizerInput := some truncated }
        | some summary =>
          { shownError := none
            summary_result := some
              { summary := summary, original_text := truncated
                original_length := text.length, summary_length := summary.length }
            stats := some
              { original_length := text.length, summary_length := summary.length
                compression_ratio := 1 - (summary.length : ℚ) / (text.length : ℚ) }
            tempFileCreated := true, tempCopyCreated := true, tempDeleted := true
            extractionAttempted := true, summarizerInput := some truncated }

/-- The configuration error of the chunker: the overlap is not smaller
than the maximum chunk size, which would make the cursor loop forever. -/
inductive ChunkConfigError where
  | overlapNotSmaller
deriving DecidableEq

/-- Modelled from the spec: the cursor loop of the chunker of the chunked
variant of the application, whose source file is not under src.  The
loop keeps a cursor start; while start is below the text length it emits
the span from start to the smaller of the text length and start plus
max_chunk_size, stops once the emitted span reaches the end of the text
(the final chunk may be shorter than max_chunk_size), and otherwise
moves the cursor to the span end minus overlap.  A fuel argument bounds
the number of iterations; none signals fuel exhaustion and is proved
unreachable for valid configurations. -/
def chunkSpansAux : Nat → Nat → Nat → Nat → Nat → Option (List (Nat × Nat))
  | 0, _, _, _, _ => none
  | fuel + 1, n, maxc, ov, start =>
    if start < n then
      if n ≤ start + maxc then
        some [(start, n)]
      else
        match chunkSpansAux fuel n maxc ov (start + maxc - ov) with
        | none => none
        | some rest => some ((start, start + maxc) :: rest)
    else
      some []

/-- Modelled from the spec: chunking a text of length n with parameters
max_chunk_size and overlap.  A configuration with overlap at least
max_chunk_size is rejected as a configuration error; otherwise the
cursor loop runs with enough fuel (the fallback for exhausted fuel is
never reached for valid configurations, as proved below). -/
def chunk_spans (n maxc ov : Nat) : Except ChunkConfigError (List (Nat × Nat)) :=
  if maxc ≤ ov then .error .overlapNotSmaller
  else
    match chunkSpansAux (n + 1) n maxc ov 0 with
    | some l => .ok l
    | none => .ok []

/-- Modelled from the spec: the chunk substrings themselves, obtained by
cutting the text at the computed spans. -/
def chunk_text (text : List Char) (maxc ov : Nat) :
    Except ChunkConfigError (List (List Char)) :=
  (chunk_spans text.length maxc ov).map
    (fun spans => spans.map (fun s => (text.drop s.1).take (s.2 - s.1)))

/-- A 100-character extracted text used in concrete runs. -/
def text100 : List Char := List.replicate 100 'a'

/-- A 25-character model output used in concrete runs. -/
def summary25 : List Char := List.replicate 25 'b'

/-- A concrete fully successful run environment: a valid file name, the
upload saved without failure, 100 characters extracted, the model
returning a 25-character summary. -/
def envSuccess : Env :=
  { file_name := "doc.txt".data, writeOk := true
    extractResult := some text100, summarize := fun _ => some summary25 }

/-- A concrete run environment whose uploaded file has a disallowed
extension. -/
def envBadName : Env :=
  { file_name := "notes.docx".data, writeOk := true
    extractResult := some text100, summarize := fun _ => some summary25 }

/-- A concrete run environment in which text extraction fails. -/
def envNoText : Env :=
  { file_name := "doc.pdf".data, writeOk := true
    extractResult := none, summarize := fun _ => some summary25 }

/-- A concrete run environment whose extracted text has 2000 characters,
exceeding MAX_TEXT_LENGTH. -/
def envLong : Env :=
  { file_name := "doc.txt".data, writeOk := true
    extractResult := some (List.replicate 2000 'a'), summarize := fun _ => some summary25 }

end PdfSummary

namespace PdfSummary

/-! Branch computation lemmas for process_document, one per control path
of the source function. -/

/-- Run with an invalid file name: rejected before the temporary file. -/
theorem process_document_invalid (env : Env)
    (hv : is_valid_file_extension env.file_name = false) :
    process_document env =
      { shownError := some (.validation ALLOWED_EXTENSIONS)
        summary_result := none, stats := none
        tempFileCreated := false, tempCopyCreated := false, tempDeleted := false
        extractionAttempted := false, summarizerInput := none } := by
  simp [process_document, hv]

/-- Run in which saving the uploaded bytes fails. -/
theorem process_document_writeFail (env : Env)
    (hv : is_valid_file_extension env.file_name = true)
    (hw : env.writeOk = false) :
    process_document env =
      { shownError := some .saveFailure
        summary_result := none, stats := none
        tempFileCreated := true, tempCopyCreated := false, tempDeleted := false
        extractionAttempted := false, summarizerInput := none } := by
  simp [process_document, hv, hw]

/-- Run in which extract_text_from_file returned None. -/
theorem process_document_extractFail (env : Env)
    (hv : is_valid_file_extension env.file_name = true)
    (hw : env.writeOk = true)
    (hext : env.extractResult = none) :
    process_document env =
      { shownError := some .extraction
        summary_result := none, stats := none
        tempFileCreated := true, tempCopyCreated := true, tempDeleted := true
        extractionAttempted := true, summarizerInput := none } := by
  simp [process_document, hv, hw, hext]

/-- Run in which extraction produced the empty string. -/
theorem process_document_extractEmpty (env : Env)
    (hv : is_valid_file_extension env.file_name = true)
    (hw : env.writeOk = true)
    (hext : env.extractResult = some []) :
    process_document env =
      { shownError := some .extraction
        summary_result := none, stats := none
        tempFileCreated := true, tempCopyCreated := true, tempDeleted := true
        extractionAttempted := true, summarizerInput := none } := by
  simp [process_document, hv, hw, hext]

/-- Run in which the model load or invocation fails. -/
theorem process_document_summFail (env : Env) (text : List Char)
    (hv : is_valid_file_extension env.file_name = true)
    (hw : env.writeOk = true)
    (hext : env.extractResult = some text)
    (hne : text ≠ [])
    (hsum : env.summarize
        (if text.length > MAX_TEXT_LENGTH then text.take MAX_TEXT_LENGTH else text) = none) :
    process_document env =
      { shownError := some .summarization
        summary_result := none, stats := none
        tempFileCreated := true, tempCopyCreated := true, tempDeleted := true
        extractionAttempted := true
        summarizerInput :=
          some (if text.length > MAX_TEXT_LENGTH then text.take MAX_TEXT_LENGTH else text) } := by
  simp [process_document, hv, hw, hext, hne, hsum]

/-- Fully successful run. -/
theorem process_document_success (env : Env) (text summary : List Char)
    (hv : is_valid_file_extension env.file_name = true)
    (hw : env.writeOk = true)
    (hext : env.extractResult = some text)
    (hne : text ≠ [])
    (hsum : env.summarize
        (if text.length > MAX_TEXT_LENGTH then text.take MAX_TEXT_LENGTH else text)
        = some summary) :
    process_document env =
      { shownError := none
        summary_result := some
          { summary := summary
            original_text :=
              if text.length > MAX_TEXT_LENGTH then text.take MAX_TEXT_LENGTH else text
            original_length := text.length, summary_length := summary.length }
        stats := some
          { original_length := text.length, summary_length := summary.length
            compression_ratio := 1 - (summary.length : ℚ) / (text.length : ℚ) }
        tempFileCreated := true, tempCopyCreated := true, tempDeleted := true
        extractionAttempted := true
        summarizerInput :=
          some (if text.length > MAX_TEXT_LENGTH then text.take MAX_TEXT_LENGTH else text) } := by
  simp [process_document, hv, hw, hext, hne, hsum]

/-- Inversion: stored statistics can only come from the fully successful
path, and they record the pre-truncation text length, the summary length
and the compression ratio computed from both. -/
theorem stats_inversion (env : Env) (s : Stats)
    (h : (process_document env).stats = some s) :
    ∃ text summary, env.extractResult = some text ∧ text ≠ [] ∧
      env.summarize
        (if text.length > MAX_TEXT_LENGTH then text.take MAX_TEXT_LENGTH else text)
        = some summary ∧
      s = { original_length := text.length, summary_length := summary.length
            compression_ratio := 1 - (summary.length : ℚ) / (text.length : ℚ) } := by
  by_cases hv : is_valid_file_extension env.file_name = true
  · by_cases hw : env.writeOk = true
    · cases hext : env.extractResult with
      | none => rw [process_document_extractFail env hv hw hext] at h; simp at h
      | some text =>
        by_cases hne : text = []
        · subst hne
          rw [process_document_extractEmpty env hv hw hext] at h; simp at h
        · cases hsum : env.summarize
              (if text.length > MAX_TEXT_LENGTH then text.take MAX_TEXT_LENGTH else text) with
          | none =>
            rw [process_document_summFail env text hv hw hext hne hsum] at h; simp at h
          | some summary =>
            rw [process_document_success env text summary hv hw hext hne hsum] at h
            exact ⟨text, summary, rfl, hne, hsum, (Option.some.inj h).symm⟩
    · rw [process_document_writeFail env hv (Bool.eq_false_iff.mpr hw)] at h; simp at h
  · rw [process_document_invalid env (Bool.eq_false_iff.mpr hv)] at h; simp at h

/-- Inversion: a text handed to the summarization model is the extracted
text, truncated to MAX_TEXT_LENGTH characters when longer. -/
theorem summarizerInput_inversion (env : Env) (t : List Char)
    (h : (process_document env).summarizerInput = some t) :
    ∃ text, env.extractResult = some text ∧ text ≠ [] ∧
      t = (if text.length > MAX_TEXT_LENGTH then text.take MAX_TEXT_LENGTH else text) := by
  by_cases hv : is_valid_file_extension env.file_name = true
  · by_cases hw : env.writeOk = true
    · cases hext : env.extractResult with
      | none => rw [process_document_extractFail env hv hw hext] at h; simp at h
      | some text =>
        by_cases hne : text = []
        · subst hne
          rw [process_document_extractEmpty env hv hw hext] at h; simp at h
        · cases hsum : env.summarize
              (if text.length > MAX_TEXT_LENGTH then text.take MAX_TEXT_LENGTH else text) with
          | none =>
            rw [process_document_summFail env text hv hw hext hne hsum] at h
            exact ⟨text, rfl, hne, (Option.some.inj h).symm⟩
          | some summary =>
            rw [process_document_success env text summary hv hw hext hne hsum] at h
            exact ⟨text, rfl, hne, (Option.some.inj h).symm⟩
    · rw [process_document_writeFail env hv (Bool.eq_false_iff.mpr hw)] at h; simp at h
  · rw [process_document_invalid env (Bool.eq_false_iff.mpr hv)] at h; simp at h

/-- Full evaluation of the concrete successful run. -/
theorem envSuccess_run :
    process_document envSuccess =
      { shownError := none
        summary_result := some
          { summary := summary25, original_text := text100
            original_length := 100, summary_length := 25 }
        stats := some
          { original_length := 100, summary_length := 25, compression_ratio := 3 / 4 }
        tempFileCreated := true, tempCopyCreated := true, tempDeleted := true
        extractionAttempted := true
        summarizerInput := some text100 } := by
  rw [process_document_success envSuccess text100 summary25 (by decide) rfl rfl
    (by simp [text100]) rfl]
  have hlen : text100.length = 100 := by simp [text100]
  have hslen : summary25.length = 25 := by simp [summary25]
  simp only [hlen, hslen, MAX_TEXT_LENGTH]
  norm_num

/-- The summarizer input of the concrete long-text run is the truncation
of the 2000-character extracted text. -/
theorem envLong_summarizerInput :
    (process_document envLong).summarizerInput =
      some ((List.replicate 2000 'a').take MAX_TEXT_LENGTH) := by
  rw [process_document_success envLong (List.replicate 2000 'a') summary25 (by decide) rfl rfl
    (List.ne_nil_of_length_pos (by rw [List.length_replicate]; omega)) rfl]
  rw [if_pos (by rw [List.length_replicate]; decide)]

/-- The statistics of the concrete long-text run record the full length
of 2000 characters. -/
theorem envLong_stats :
    (process_document envLong).stats =
      some { original_length := 2000, summary_length := 25
             compression_ratio := 1 - (25 : ℚ) / 2000 } := by
  rw [process_document_success envLong (List.replicate 2000 'a') summary25 (by decide) rfl rfl
    (List.ne_nil_of_length_pos (by rw [List.length_replicate]; omega)) rfl]
  rw [List.length_replicate]
  have hs : summary25.length = 25 := by simp [summary25]
  rw [hs]
  norm_num

/-- C1: for every successful run of the pipeline, the reported compression
ratio equals 1 - (summary_length / original_length), where original_length
is the length of the extracted text and summary_length the length of the
final summary; in particular, for original_length 100 and summary_length
25 the ratio equals 0.75. -/
theorem claim_C1 :
    (∀ (env : Env) (s : Stats), (process_document env).stats = some s →
      ∃ (text summary : List Char), env.extractResult = some text ∧
        s.original_length = text.length ∧ s.summary_length = summary.length ∧
        s.compression_ratio = 1 - (s.summary_length : ℚ) / (s.original_length : ℚ))
    ∧ (process_document envSuccess).stats =
        some { original_length := 100, summary_length := 25, compression_ratio := 3 / 4 } := by
  constructor
  · intro env s h
    obtain ⟨text, summary, hext, _, _, hs⟩ := stats_inversion env s h
    subst hs
    exact ⟨text, summary, hext, rfl, rfl, rfl⟩
  · rw [envSuccess_run]

/-- Witness for C1 at the concrete successful run with a 100-character
extracted text and a 25-character summary. -/
theorem claim_C1_witness :
    ∃ (text summary : List Char), envSuccess.extractResult = some text ∧
      (Stats.mk 100 25 (3 / 4)).original_length = text.length ∧
      (Stats.mk 100 25 (3 / 4)).summary_length = summary.length ∧
      (Stats.mk 100 25 (3 / 4)).compression_ratio =
        1 - ((Stats.mk 100 25 (3 / 4)).summary_length : ℚ) /
            ((Stats.mk 100 25 (3 / 4)).original_length : ℚ) :=
  claim_C1.1 envSuccess (Stats.mk 100 25 (3 / 4)) (by rw [envSuccess_run])

/-- C2: whenever the pipeline reaches the statistics computation, the
original extracted-text length is strictly positive (the empty-text and
failed-extraction runs abort before the division), so the compression
ratio division has a nonzero denominator. -/
theorem claim_C2 (env : Env) (s : Stats)
    (h : (process_document env).stats = some s) :
    0 < s.original_length ∧ (s.original_length : ℚ) ≠ 0 := by
  obtain ⟨text, summary, hext, hne, hsum, hs⟩ := stats_inversion env s h
  subst hs
  have hpos : 0 < text.length := List.length_pos.mpr hne
  exact ⟨hpos, Nat.cast_ne_zero.mpr hpos.ne'⟩

/-- Witness for C2 at the concrete successful run. -/
theorem claim_C2_witness :
    0 < (Stats.mk 100 25 (3 / 4)).original_length ∧
      ((Stats.mk 100 25 (3 / 4)).original_length : ℚ) ≠ 0 :=
  claim_C2 envSuccess (Stats.mk 100 25 (3 / 4)) (by rw [envSuccess_run])

/-- C3: a file whose name fails extension validation is rejected with the
validation error naming the allowed set, before any temporary file is
written and before any extraction attempt; a file named notes.docx fails
validation. -/
theorem claim_C3 :
    (∀ env : Env, is_valid_file_extension env.file_name = false →
      process_document env =
        { shownError := some (.validation ALLOWED_EXTENSIONS)
          summary_result := none, stats := none
          tempFileCreated := false, tempCopyCreated := false, tempDeleted := false
          extractionAttempted := false, summarizerInput := none })
    ∧ is_valid_file_extension "notes.docx".data = false :=
  ⟨process_document_invalid, by decide⟩

/-- Witness for C3 at the concrete run uploading notes.docx. -/
theorem claim_C3_witness :
    process_document envBadName =
      { shownError := some (.validation ALLOWED_EXTENSIONS)
        summary_result := none, stats := none
        tempFileCreated := false, tempCopyCreated := false, tempDeleted := false
        extractionAttempted := false, summarizerInput := none } :=
  claim_C3.1 envBadName (by decide)

/-- C5: a run in which extraction fails or yields zero extractable text
surfaces an extraction error and aborts with no partial result: no
summary and no statistics are stored, and the model is never invoked. -/
theorem claim_C5 (env : Env)
    (hv : is_valid_file_extension env.file_name = true)
    (hw : env.writeOk = true)
    (hext : env.extractResult = none ∨ env.extractResult = some []) :
    (process_document env).shownError = some .extraction ∧
    (process_document env).stats = none ∧
    (process_document env).summary_result = none ∧
    (process_document env).summarizerInput = none := by
  rcases hext with hext | hext
  · rw [process_document_extractFail env hv hw hext]
    exact ⟨rfl, rfl, rfl, rfl⟩
  · rw [process_document_extractEmpty env hv hw hext]
    exact ⟨rfl, rfl, rfl, rfl⟩

/-- Witness for C5 at the concrete run whose extraction returns None. -/
theorem claim_C5_witness :
    (process_document envNoText).shownError = some .extraction ∧
    (process_document envNoText).stats = none ∧
    (process_document envNoText).summary_result = none ∧
    (process_document envNoText).summarizerInput = none :=
  claim_C5 envNoText (by decide) rfl (Or.inl rfl)

/-- C6: on every run in which the temporary on-disk copy of the uploaded
document is created (the temporary file exists and holds the uploaded
bytes), the temporary file is deleted by the end of the run, whether
extraction and summarization succeed or raise an error. -/
theorem claim_C6 (env : Env)
    (h : (process_document env).tempCopyCreated = true) :
    (process_document env).tempDeleted = true := by
  by_cases hv : is_valid_file_extension env.file_name = true
  · by_cases hw : env.writeOk = true
    · cases hext : env.extractResult with
      | none => rw [process_document_extractFail env hv hw hext]
      | some text =>
        by_cases hne : text = []
        · subst hne
          rw [process_document_extractEmpty env hv hw hext]
        · cases hsum : env.summarize
              (if text.length > MAX_TEXT_LENGTH then text.take MAX_TEXT_LENGTH else text) with
          | none => rw [process_document_summFail env text hv hw hext hne hsum]
          | some summary =>
            rw [process_document_success env text summary hv hw hext hne hsum]
    · rw [process_document_writeFail env hv (Bool.eq_false_iff.mpr hw)] at h
      simp at h
  · rw [process_document_invalid env (Bool.eq_false_iff.mpr hv)] at h
    simp at h

/-- Witness for C6 at the concrete successful run. -/
theorem claim_C6_witness : (process_document envSuccess).tempDeleted = true :=
  claim_C6 envSuccess (by rw [envSuccess_run])

/-- C9: every text handed to the summarization model has at most
MAX_TEXT_LENGTH characters: it is the extracted text itself when that
fits, and its first MAX_TEXT_LENGTH characters when longer, while the
reported original_length statistic keeps the pre-truncation length. -/
theorem claim_C9 :
    (∀ (env : Env) (t : List Char),
      (process_document env).summarizerInput = some t →
      ∃ text, env.extractResult = some text ∧
        t.length ≤ MAX_TEXT_LENGTH ∧
        (text.length ≤ MAX_TEXT_LENGTH → t = text) ∧
        (MAX_TEXT_LENGTH < text.length → t = text.take MAX_TEXT_LENGTH))
    ∧ (∀ (env : Env) (s : Stats), (process_document env).stats = some s →
      ∃ text, env.extractResult = some text ∧ s.original_length = text.length) := by
  constructor
  · intro env t h
    obtain ⟨text, hext, hne, ht⟩ := summarizerInput_inversion env t h
    subst ht
    by_cases hlen : text.length > MAX_TEXT_LENGTH
    · refine ⟨text, hext, ?_, ?_, ?_⟩
      · rw [if_pos hlen, List.length_take]
        exact Nat.min_le_left _ _
      · intro hle
        omega
      · intro _
        rw [if_pos hlen]
    · refine ⟨text, hext, ?_, ?_, ?_⟩
      · rw [if_neg hlen]
        omega
      · intro _
        rw [if_neg hlen]
      · intro hgt
        omega
  · intro env s h
    obtain ⟨text, summary, hext, _, _, hs⟩ := stats_inversion env s h
    exact ⟨text, hext, by rw [hs]⟩

/-- Witness for C9 at the concrete run with a 2000-character extracted
text. -/
theorem claim_C9_witness :
    ∃ text, envLong.extractResult = some text ∧
      ((List.replicate 2000 'a').take MAX_TEXT_LENGTH).length ≤ MAX_TEXT_LENGTH ∧
      (text.length ≤ MAX_TEXT_LENGTH →
        (List.replicate 2000 'a').take MAX_TEXT_LENGTH = text) ∧
      (MAX_TEXT_LENGTH < text.length →
        (List.replicate 2000 'a').take MAX_TEXT_LENGTH = text.take MAX_TEXT_LENGTH) :=
  claim_C9.1 envLong ((List.replicate 2000 'a').take MAX_TEXT_LENGTH) envLong_summarizerInput

/-- Auxiliary: stripping after appending a trailing space equals stripping
the original list. -/
theorem pyStrip_append_space (s : List Char) : pyStrip (s ++ [' ']) = pyStrip s := by
  unfold pyStrip
  rcases hds : s.dropWhile pyIsSpace with _ | ⟨c, t⟩
  · have h1 : (s ++ [' ']).dropWhile pyIsSpace = [' '].dropWhile pyIsSpace := by
      rw [List.dropWhile_append, hds]
      simp
    have h2 : ([' '] : List Char).dropWhile pyIsSpace = [] := by decide
    rw [h1, h2]
  · have h1 : (s ++ [' ']).dropWhile pyIsSpace = (c :: t) ++ [' '] := by
      rw [List.dropWhile_append, hds]
      simp
    rw [h1]
    simp only [List.reverse_append, List.reverse_cons, List.reverse_nil, List.nil_append,
      List.singleton_append]
    rw [List.dropWhile_cons_of_pos (by decide)]

/-- C4: PDF extraction returns the page texts in page order, a page with
no extractable text contributing the empty string, joined with a single
space and trimmed of surrounding whitespace; in particular, on a 2-page
document whose second page yields no text the result is the first page
text trimmed, with no doubled interior space from the join. -/
theorem claim_C4 :
    (∀ pages : List (Option (List Char)),
      extract_text_from_pdf pages =
        pyStrip (joinWithSpace (pages.map (fun p => p.getD []))))
    ∧ (∀ (p1 : List Char) (p2 : Option (List Char)), p2.getD [] = [] →
      extract_text_from_pdf [some p1, p2] = pyStrip p1) := by
  refine ⟨fun pages => rfl, fun p1 p2 h2 => ?_⟩
  show pyStrip (joinWithSpace [p1, p2.getD []]) = pyStrip p1
  rw [h2]
  have hj : joinWithSpace [p1, ([] : List Char)] = p1 ++ [' '] := by
    simp [joinWithSpace, List.intercalate, List.intersperse]
  rw [hj, pyStrip_append_space]

/-- Witness for C4 on a concrete 2-page document whose second page yields
no text. -/
theorem claim_C4_witness :
    extract_text_from_pdf [some "hello".data, none] = pyStrip "hello".data :=
  claim_C4.2 "hello".data none rfl

/-- C7: chunking a 7000-character text with max_chunk_size 3000 and
overlap 200 yields exactly the three spans 0 to 3000, 2800 to 5800 and
5600 to 7000. -/
theorem claim_C7 :
    chunk_spans 7000 3000 200 = .ok [(0, 3000), (2800, 5800), (5600, 7000)] := by
  rfl

/-- Auxiliary: with overlap below max_chunk_size, the cursor loop
finishes within fuel exceeding the number of characters left of the
cursor. -/
theorem chunkSpansAux_isSome :
    ∀ (fuel n maxc ov start : Nat), ov < maxc → n - start < fuel →
      ∃ l, chunkSpansAux fuel n maxc ov start = some l := by
  intro fuel
  induction fuel with
  | zero =>
    intro n maxc ov start _ h
    omega
  | succ fuel ih =>
    intro n maxc ov start hov h
    by_cases hs : start < n
    · by_cases hend : n ≤ start + maxc
      · exact ⟨[(start, n)], by simp [chunkSpansAux, hs, hend]⟩
      · obtain ⟨l, hl⟩ := ih n maxc ov (start + maxc - ov) hov (by omega)
        exact ⟨(start, start + maxc) :: l, by simp [chunkSpansAux, hs, hend, hl]⟩
    · exact ⟨[], by simp [chunkSpansAux, hs]⟩

/-- C8: a configuration whose overlap is at least max_chunk_size is
rejected as a configuration error; for every valid configuration the
cursor loop terminates within its fuel and chunking returns a finite
chunk sequence. -/
theorem claim_C8 :
    (∀ n maxc ov : Nat, maxc ≤ ov →
      chunk_spans n maxc ov = .error .overlapNotSmaller)
    ∧ (∀ n maxc ov : Nat, ov < maxc →
      ∃ l, chunkSpansAux (n + 1) n maxc ov 0 = some l ∧ chunk_spans n maxc ov = .ok l) := by
  constructor
  · intro n maxc ov h
    simp [chunk_spans, h]
  · intro n maxc ov h
    obtain ⟨l, hl⟩ := chunkSpansAux_isSome (n + 1) n maxc ov 0 h (by omega)
    refine ⟨l, hl, ?_⟩
    unfold chunk_spans
    rw [if_neg (by omega), hl]

/-- Witness for C8: the configuration with overlap 5 and max_chunk_size 3
is rejected, and the valid configuration with max_chunk_size 3 and
overlap 1 terminates on a 7-character text. -/
theorem claim_C8_witness :
    chunk_spans 10 3 5 = .error .overlapNotSmaller ∧
      ∃ l, chunkSpansAux (7 + 1) 7 3 1 0 = some l ∧ chunk_spans 7 3 1 = .ok l :=
  ⟨claim_C8.1 10 3 5 (by decide), claim_C8.2 7 3 1 (by decide)⟩

/-- Auxiliary: the first element left by dropWhile fails the predicate. -/
theorem dropWhile_head_false {α : Type} (p : α → Bool) :
    ∀ (l : List α) (c : α) (d : List α), l.dropWhile p = c :: d → p c = false := by
  intro l
  induction l with
  | nil =>
    intro c d h
    simp at h
  | cons a l ih =>
    intro c d h
    rw [List.dropWhile_cons] at h
    by_cases hp : p a = true
    · rw [if_pos hp] at h
      exact ih c d h
    · rw [if_neg hp] at h
      injection h with h1 h2
      subst h1
      exact Bool.eq_false_iff.mpr hp

/-- Auxiliary: a filename containing a dot splits as a prefix, the last
dot, and the dot-free part afterLastDot returns. -/
theorem exists_decomp_afterLastDot {f : List Char} (h : '.' ∈ f) :
    ∃ pre, f = pre ++ '.' :: afterLastDot f ∧ '.' ∉ afterLastDot f := by
  have hmem : '.' ∈ f.reverse := List.mem_reverse.mpr h
  have htd := List.takeWhile_append_dropWhile
    (p := fun c => decide (c ≠ '.')) (l := f.reverse)
  have hnot : '.' ∉ afterLastDot f := by
    unfold afterLastDot
    intro hin
    have := List.mem_takeWhile_imp (List.mem_reverse.mp hin)
    simp at this
  rcases hd : f.reverse.dropWhile (fun c => decide (c ≠ '.')) with _ | ⟨c, d⟩
  · exfalso
    rw [hd, List.append_nil] at htd
    have hmem' : '.' ∈ f.reverse.takeWhile (fun c => decide (c ≠ '.')) := by
      rw [htd]
      exact hmem
    have := List.mem_takeWhile_imp hmem'
    simp at this
  · have hc : (fun c => decide (c ≠ '.')) c = false :=
      dropWhile_head_false _ f.reverse c d hd
    have hcdot : c = '.' := by
      by_contra hne
      simp [hne] at hc
    subst hcdot
    refine ⟨d.reverse, ?_, hnot⟩
    have hrev : f.reverse
        = f.reverse.takeWhile (fun c => decide (c ≠ '.')) ++ '.' :: d := by
      rw [← hd]
      exact htd.symm
    have hf := congrArg List.reverse hrev
    rw [List.reverse_reverse] at hf
    have haft : afterLastDot f
        = (f.reverse.takeWhile (fun c => decide (c ≠ '.'))).reverse := rfl
    rw [haft]
    conv_lhs => rw [hf]
    rw [List.reverse_append, List.reverse_cons, List.append_assoc,
      List.singleton_append]

/-- Auxiliary: afterLastDot recovers the part after the last dot of a
decomposed filename. -/
theorem afterLastDot_append (pre ext : List Char) (h : '.' ∉ ext) :
    afterLastDot (pre ++ '.' :: ext) = ext := by
  unfold afterLastDot
  rw [List.reverse_append, List.reverse_cons, List.append_assoc, List.singleton_append]
  rw [List.takeWhile_append_of_pos (by
    intro a ha
    have : a ∈ ext := List.mem_reverse.mp ha
    simp
    intro hc
    subst hc
    exact h this)]
  rw [List.takeWhile_cons_of_neg (by simp)]
  rw [List.append_nil, List.reverse_reverse]

/-- The extension validator accepts exactly the filenames that split
around a last dot whose dot-free remainder lower-cases to pdf or txt. -/
theorem is_valid_file_extension_iff (f : List Char) :
    is_valid_file_extension f = true ↔
      ∃ pre ext, f = pre ++ '.' :: ext ∧ '.' ∉ ext ∧
        (ext.map pyLowerChar = "pdf".data ∨ ext.map pyLowerChar = "txt".data) := by
  unfold is_valid_file_extension
  rw [Bool.and_eq_true]
  constructor
  · rintro ⟨hdot, hmem⟩
    have hdot' : '.' ∈ f := by simpa using hdot
    obtain ⟨pre, hf, hnot⟩ := exists_decomp_afterLastDot hdot'
    refine ⟨pre, afterLastDot f, hf, hnot, ?_⟩
    simpa [ALLOWED_EXTENSIONS] using hmem
  · rintro ⟨pre, ext, rfl, hnot, hpt⟩
    refine ⟨by simp, ?_⟩
    rw [afterLastDot_append pre ext hnot]
    simpa [ALLOWED_EXTENSIONS] using hpt

/-- C10: the validator accepts a filename exactly when it has a last dot
whose dot-free remainder lower-cases to pdf or txt; REPORT.PDF and
archive.tar.txt are accepted, pdf (no dot) and notes.txt.bak are
rejected. -/
theorem claim_C10 :
    (∀ f : List Char, is_valid_file_extension f = true ↔
      ∃ pre ext, f = pre ++ '.' :: ext ∧ '.' ∉ ext ∧
        (ext.map pyLowerChar = "pdf".data ∨ ext.map pyLowerChar = "txt".data))
    ∧ is_valid_file_extension "REPORT.PDF".data = true
    ∧ is_valid_file_extension "archive.tar.txt".data = true
    ∧ is_valid_file_extension "pdf".data = false
    ∧ is_valid_file_extension "notes.txt.bak".data = false :=
  ⟨is_valid_file_extension_iff, by decide, by decide, by decide, by decide⟩

/-- Witness for C10: the characterization instantiated at the accepted
filename REPORT.PDF. -/
theorem claim_C10_witness :
    ∃ pre ext, "REPORT.PDF".data = pre ++ '.' :: ext ∧ '.' ∉ ext ∧
      (ext.map pyLowerChar = "pdf".data ∨ ext.map pyLowerChar = "txt".data) :=
  (claim_C10.1 "REPORT.PDF".data).mp (by decide)

end PdfSummary
